import Mathlib

/-!
Verification of the batch job subsystem of the LLM gateway.

The development shallowly embeds the Python sources:
  * `app/services/batch_service.py` (`BatchService`): job submission, status
    lookup, status update, queue pop, over a Redis backend (keys with a 24h
    TTL plus a `batch_queue` list) or an in-process dictionary fallback.
  * `app/services/llm_client.py` (`LLMClient.chat_completion`,
    `LLMClient.batch_chat_completion`): per-task execution with isolation of
    task-level failures.
  * `app/routers/batch.py` (`submit_batch_generation`): model validation in
    front of job creation.
  * `workers/batch_worker.py` (`process_batch_job`, `worker_loop`): the worker
    that drives jobs from `queued` through `processing` to a terminal status.

Timestamps (`int(time.time())`) are modelled by an explicit `now : Nat`
argument.  Job identifiers come from `uuid.uuid4()`; the embedding takes the
generated identifier as an argument and freshness (uuid non-reuse) appears as
an explicit hypothesis where it matters.  Float-valued generation parameters
(`temperature`, `top_p`) are only ever carried verbatim from request to job
record to backend call, never computed with, so they are carried as opaque
`Nat` codes.  Python truthiness (`if results:`, `if error:`,
`not job_data['started_at']`) is embedded explicitly.
-/

namespace LlmGateway

/-- One conversation message (`app/models/schemas.py`, `Message`). -/
structure Message where
  role : String
  content : String
deriving Repr, DecidableEq

/-- One task of a batch request (`app/models/schemas.py`, `BatchTask`):
a caller-supplied id plus a message list. -/
structure BatchTask where
  id : String
  messages : List Message
deriving Repr, DecidableEq

/-- Token usage counters (`app/models/schemas.py`, `UsageInfo`). -/
structure UsageInfo where
  prompt_tokens : Nat
  completion_tokens : Nat
  total_tokens : Nat
deriving Repr, DecidableEq

/-- Result of one task, as appended by
`LLMClient.batch_chat_completion` (`app/services/llm_client.py`). -/
structure TaskResult where
  id : String
  output : String
  usage : UsageInfo
  error : Option String
deriving Repr, DecidableEq

/-- One job record, exactly the dictionary built by
`BatchService.submit_batch_job` (`app/services/batch_service.py`). -/
structure Job where
  job_id : String
  status : String
  model_id : String
  tasks : List BatchTask
  max_tokens : Nat
  temperature : Nat
  top_p : Nat
  metadata : List (String × String)
  submitted_at : Nat
  started_at : Option Nat
  completed_at : Option Nat
  task_count : Nat
  completed_count : Nat
  failed_count : Nat
  results : Option (List TaskResult)
  error : Option String
deriving Repr, DecidableEq

/-- Python truthiness of an optional integer field: `None` and `0` are falsy. -/
def truthyNat : Option Nat → Bool
  | none => false
  | some n => n != 0

/-- Python truthiness of an optional string field: `None` and `""` are falsy. -/
def truthyStr : Option String → Bool
  | none => false
  | some s => s != ""

/-- Update of a string-keyed dictionary, with Python `dict` semantics: an
existing key keeps its position, a new key is appended at the end. -/
def assocSet {α : Type} (l : List (String × α)) (k : String) (v : α) :
    List (String × α) :=
  match l with
  | [] => [(k, v)]
  | (k', v') :: rest =>
      if k' = k then (k, v) :: rest else (k', v') :: assocSet rest k v

/-- Lookup in a string-keyed dictionary. -/
def assocGet {α : Type} (l : List (String × α)) (k : String) : Option α :=
  (l.find? (fun e => e.1 == k)).map (·.2)

/-- Storage backend selected once in `BatchService.__init__`
(`app/services/batch_service.py`): either Redis, holding job records under
`job:`-prefixed keys together with their absolute expiry instant and the
`batch_queue` list (head of the list = left / `lpush` end), or the in-process
`_in_memory_jobs` dictionary fallback, which has no expiry and no queue. -/
inductive StoreBackend where
  | redis (entries : List (String × (Job × Nat))) (batch_queue : List String) :
      StoreBackend
  | inMemory (jobs : List (String × Job)) : StoreBackend
deriving Repr, DecidableEq

/-- Redis key of a job record, `f"job:{job_id}"`. -/
def jobKey (job_id : String) : String := "job:" ++ job_id

/-- The record keyed by a job id in the backend, ignoring expiry: the raw
stored snapshot.  Expired Redis entries linger here but are invisible to
`get_job_status`. -/
def rawGet (b : StoreBackend) (job_id : String) : Option Job :=
  match b with
  | .redis entries _ => (assocGet entries (jobKey job_id)).map (·.1)
  | .inMemory jobs => assocGet jobs job_id

/-- The queue contents of the backend; the in-memory fallback keeps no
explicit queue. -/
def queueOf : StoreBackend → List String
  | .redis _ q => q
  | .inMemory _ => []

/-- `BatchService.get_job_status`: Redis `GET job:{job_id}` (expired keys read
as absent), or a plain dictionary lookup in the fallback. -/
def get_job_status (b : StoreBackend) (now : Nat) (job_id : String) :
    Option Job :=
  match b with
  | .redis entries _ =>
      match assocGet entries (jobKey job_id) with
      | some e => if now < e.2 then some e.1 else none
      | none => none
  | .inMemory jobs => assocGet jobs job_id

/-- A write of a complete job record: Redis `SET job:{job_id} ... ex=86400`
(always resetting the TTL to 24 hours), or dictionary assignment in the
fallback. -/
def storePut (b : StoreBackend) (now : Nat) (job_id : String) (job : Job) :
    StoreBackend :=
  match b with
  | .redis entries q =>
      .redis (assocSet entries (jobKey job_id) (job, now + 86400)) q
  | .inMemory jobs => .inMemory (assocSet jobs job_id job)

/-- The fresh job dictionary built in `BatchService.submit_batch_job`;
`metadata or {}` maps `None` (and `{}`) to the empty mapping. -/
def mkJobData (job_id model_id : String) (tasks : List BatchTask)
    (max_tokens temperature top_p : Nat)
    (metadata : Option (List (String × String))) (submitted_at : Nat) : Job :=
  { job_id := job_id
    status := "queued"
    model_id := model_id
    tasks := tasks
    max_tokens := max_tokens
    temperature := temperature
    top_p := top_p
    metadata := metadata.getD []
    submitted_at := submitted_at
    started_at := none
    completed_at := none
    task_count := tasks.length
    completed_count := 0
    failed_count := 0
    results := none
    error := none }

/-- `BatchService.submit_batch_job`: build the record, store it (with a 24h
TTL under Redis), `lpush` the id onto `batch_queue` under Redis, and return
the id.  `fresh` stands for the `uuid.uuid4()`-generated job id. -/
def submit_batch_job (b : StoreBackend) (now : Nat) (fresh : String)
    (model_id : String) (tasks : List BatchTask)
    (max_tokens temperature top_p : Nat)
    (metadata : Option (List (String × String))) : StoreBackend × String :=
  let job_data :=
    mkJobData fresh model_id tasks max_tokens temperature top_p metadata now
  match b with
  | .redis entries q =>
      (.redis (assocSet entries (jobKey fresh) (job_data, now + 86400))
        (fresh :: q), fresh)
  | .inMemory jobs => (.inMemory (assocSet jobs fresh job_data), fresh)

/-- The field mutations of `BatchService.update_job_status` applied to a
fetched record: set `status`; set `started_at` on `processing` only when its
current value is Python-falsy; set `completed_at` on any terminal status;
replace `results` and recompute both counters only when the `results`
argument is truthy (non-`None` and non-empty); set `error` only when the
`error` argument is truthy. -/
def applyUpdate (jd : Job) (now : Nat) (status : String)
    (results : Option (List TaskResult)) (error : Option String) : Job :=
  let jd1 := { jd with status := status }
  let jd2 :=
    if status = "processing" ∧ truthyNat jd1.started_at = false then
      { jd1 with started_at := some now }
    else jd1
  let jd3 :=
    if status = "completed" ∨ status = "failed" then
      { jd2 with completed_at := some now }
    else jd2
  let jd4 :=
    match results with
    | some rs =>
        if rs.isEmpty then jd3
        else
          { jd3 with
            results := some rs
            completed_count := (rs.filter (fun r => !truthyStr r.error)).length
            failed_count := (rs.filter (fun r => truthyStr r.error)).length }
    | none => jd3
  match error with
  | some e => if e = "" then jd4 else { jd4 with error := some e }
  | none => jd4

/-- `BatchService.update_job_status`: fetch the record; silently return the
store unchanged when it is absent; otherwise apply the field mutations and
write the record back (refreshing the 24h TTL under Redis). -/
def update_job_status (b : StoreBackend) (now : Nat) (job_id : String)
    (status : String) (results : Option (List TaskResult))
    (error : Option String) : StoreBackend :=
  match get_job_status b now job_id with
  | none => b
  | some jd => storePut b now job_id (applyUpdate jd now status results error)

/-- `BatchService.get_next_job`: Redis `rpop batch_queue` (taking from the
right, i.e. the end of the list), or, in the fallback, the first job of the
dictionary whose status is `queued` (Python dicts iterate in insertion
order); the fallback does not mutate anything. -/
def get_next_job (b : StoreBackend) : Option String × StoreBackend :=
  match b with
  | .redis entries q =>
      match q.getLast? with
      | some jid => (some jid, .redis entries q.dropLast)
      | none => (none, b)
  | .inMemory jobs =>
      ((jobs.find? (fun e => e.2.status == "queued")).map (·.1), b)

/-- Outcome of one raw backend call
(`await client.chat.completions.create(...)` in
`LLMClient.chat_completion`): a response whose first choice's content and
usage block may each be missing, or a raised exception with a message. -/
inductive ModelOutcome where
  | success (content : Option String) (usage : Option UsageInfo) :
      ModelOutcome
  | failure (message : String) : ModelOutcome
deriving Repr, DecidableEq

/-- `LLMClient.chat_completion` (`app/services/llm_client.py`), restricted to
what a caller observes: the registry is consulted first, raising
`ValueError(f"Unknown model: {model_id}")` for an unregistered id; a backend
response is normalized with `content or ""` and zero-filled usage; a backend
exception is re-raised as
`RuntimeError(f"Error calling model {model_id}: {str(e)}")`.  The model
registry is its list of registered ids, the backend call an oracle value. -/
def chat_completion (models : List String) (model_id : String)
    (call : ModelOutcome) : Except String (String × UsageInfo) :=
  if model_id ∈ models then
    match call with
    | .success content usage =>
        .ok (content.getD "", usage.getD ⟨0, 0, 0⟩)
    | .failure msg =>
        .error ("Error calling model " ++ model_id ++ ": " ++ msg)
  else .error ("Unknown model: " ++ model_id)

/-- Body of the loop of `LLMClient.batch_chat_completion`: on success append
the task id with the output and usage and `error = None`; on any exception
append the task id with empty output, zeroed usage and `error = str(e)`. -/
def taskResultFor (models : List String) (model_id : String) (t : BatchTask)
    (call : ModelOutcome) : TaskResult :=
  match chat_completion models model_id call with
  | .ok r => { id := t.id, output := r.1, usage := r.2, error := none }
  | .error e =>
      { id := t.id, output := "", usage := ⟨0, 0, 0⟩, error := some e }

/-- The task loop of `LLMClient.batch_chat_completion`, carrying the position
of the next task so that each task's backend call can be drawn from the
oracle `calls` at its own index. -/
def batchTasksFrom (models : List String) (model_id : String)
    (calls : Nat → ModelOutcome) : List BatchTask → Nat → List TaskResult
  | [], _ => []
  | t :: ts, i =>
      taskResultFor models model_id t (calls i)
        :: batchTasksFrom models model_id calls ts (i + 1)

/-- `LLMClient.batch_chat_completion`: run every task in order against the
model-invocation oracle and collect one `TaskResult` per task. -/
def batch_chat_completion (models : List String) (model_id : String)
    (tasks : List BatchTask) (calls : Nat → ModelOutcome) : List TaskResult :=
  batchTasksFrom models model_id calls tasks 0

/-- `ModelConfig.is_valid_model` (`app/config.py`): membership of the id in
the loaded model registry. -/
def is_valid_model (models : List String) (model_id : String) : Bool :=
  model_id ∈ models

/-- Body of `BatchGenerationRequest` (`app/models/schemas.py`) as far as the
batch pipeline reads it. -/
structure BatchGenerationRequest where
  model : String
  tasks : List BatchTask
  max_tokens : Option Nat
  temperature : Option Nat
  top_p : Option Nat
  batch_metadata : Option (List (String × String))
deriving Repr, DecidableEq

/-- Python `value or default` on an optional number: `None` and `0` both
yield the default. -/
def pyOrNat (v : Option Nat) (dflt : Nat) : Nat :=
  match v with
  | some n => if n = 0 then dflt else n
  | none => dflt

/-- Encoded defaults of `submit_batch_generation`: `512`, `0.7`, `0.95` (the
two floats as opaque codes). -/
def defaultMaxTokens : Nat := 512

/-- Opaque code for the default temperature `0.7`. -/
def defaultTemperature : Nat := 7

/-- Opaque code for the default `top_p` `0.95`. -/
def defaultTopP : Nat := 95

/-- `submit_batch_generation` (`app/routers/batch.py`): validate the model id
against the registry and raise `HTTPException(400, "Unknown model: ...")` —
leaving every piece of state untouched — before `submit_batch_job` is ever
called; on a valid model, submit and return the job id. -/
def submit_batch_generation (models : List String) (b : StoreBackend)
    (now : Nat) (fresh : String) (req : BatchGenerationRequest) :
    StoreBackend × Except String String :=
  if is_valid_model models req.model then
    let r := submit_batch_job b now fresh req.model req.tasks
      (pyOrNat req.max_tokens defaultMaxTokens)
      (pyOrNat req.temperature defaultTemperature)
      (pyOrNat req.top_p defaultTopP) req.batch_metadata
    (r.1, .ok r.2)
  else (b, .error ("Unknown model: " ++ req.model))

/-- The pair a worker holds between marking a job `processing` and finishing
it: the popped id and the record fetched at the start of
`process_batch_job` (`workers/batch_worker.py`). -/
structure WorkerJob where
  job_id : String
  job_data : Job
deriving Repr, DecidableEq

/-- Whole-system state: the storage backend (with the queue) shared by the
API handlers and the worker loop, plus the worker's in-flight job, `none`
while the loop is between jobs. -/
structure SysState where
  store : StoreBackend
  worker : Option WorkerJob
deriving Repr, DecidableEq

/-- The backend chosen once at `BatchService` start-up: Redis when reachable,
the empty in-process dictionary otherwise. -/
def initBackend : Bool → StoreBackend
  | true => .redis [] []
  | false => .inMemory []

/-- One observable step of the system, at time `now`.  `submit` is an API
submission with a uuid-fresh id (`uuid.uuid4()` never reuses an id that is in
the store, in the queue, or held by the worker).  The worker steps follow
`process_batch_job`: popping an id whose record is gone is logged and
skipped (`dequeueMiss`); otherwise the job is marked `processing` and held
(`dequeueHit`); the held job is then finished either with the results of
`batch_chat_completion` (`finishOk`) or, when the try-block raises, with
status `failed` and the exception's message (`finishFail`).  The only awaits
of one worker iteration sit between these steps, so each step is one
uninterrupted burst at a single timestamp. -/
inductive Step : SysState → Nat → SysState → Prop where
  | submit (s : SysState) (now : Nat) (fresh model_id : String)
      (tasks : List BatchTask) (mt tp tpp : Nat)
      (meta : Option (List (String × String)))
      (hfresh_store : rawGet s.store fresh = none)
      (hfresh_queue : fresh ∉ queueOf s.store)
      (hfresh_worker : ∀ w, s.worker = some w → w.job_id ≠ fresh) :
      Step s now
        ⟨(submit_batch_job s.store now fresh model_id tasks mt tp tpp
            meta).1,
          s.worker⟩
  | dequeueMiss (s : SysState) (now : Nat) (jid : String) (b' : StoreBackend)
      (hidle : s.worker = none)
      (hpop : get_next_job s.store = (some jid, b'))
      (hmiss : get_job_status b' now jid = none) :
      Step s now ⟨b', none⟩
  | dequeueHit (s : SysState) (now : Nat) (jid : String) (b' : StoreBackend)
      (jd : Job) (hidle : s.worker = none)
      (hpop : get_next_job s.store = (some jid, b'))
      (hhit : get_job_status b' now jid = some jd) :
      Step s now
        ⟨update_job_status b' now jid "processing" none none,
          some ⟨jid, jd⟩⟩
  | finishOk (s : SysState) (now : Nat) (w : WorkerJob)
      (models : List String) (calls : Nat → ModelOutcome)
      (hbusy : s.worker = some w) :
      Step s now
        ⟨update_job_status s.store now w.job_id "completed"
            (some (batch_chat_completion models w.job_data.model_id
              w.job_data.tasks calls)) none,
          none⟩
  | finishFail (s : SysState) (now : Nat) (w : WorkerJob) (emsg : String)
      (hbusy : s.worker = some w) :
      Step s now
        ⟨update_job_status s.store now w.job_id "failed" none (some emsg),
          none⟩

/-- A system state reachable from start-up (either backend, idle worker,
empty store) through the public operations. -/
inductive Reach : SysState → Prop where
  | init (useRedis : Bool) : Reach ⟨initBackend useRedis, none⟩
  | step (s s' : SysState) (now : Nat) (hr : Reach s) (hs : Step s now s') :
      Reach s'

/-- Rank of a status along the forward order
`queued → processing → {completed, failed}`. -/
def statusRank (st : String) : Nat :=
  if st = "queued" then 0 else if st = "processing" then 1 else 2

/-- Consistency of a populated `results` field with the record it sits in:
one entry per task, in task order and carrying the task ids, with the two
counters a partition of the task count. -/
def resultsConsistent (job : Job) : Prop :=
  ∀ rs, job.results = some rs →
    rs.length = job.task_count ∧
    (∀ (k : Nat) (h1 : k < rs.length) (h2 : k < job.tasks.length),
      (rs.get ⟨k, h1⟩).id = (job.tasks.get ⟨k, h2⟩).id) ∧
    job.completed_count + job.failed_count = job.task_count

/-- Keys of the raw store entries (Redis keys carry the `job:` prefix). -/
def storeKeys (b : StoreBackend) : List String :=
  match b with
  | .redis entries _ => entries.map (·.1)
  | .inMemory jobs => jobs.map (·.1)

/-- System invariant maintained by every reachable state. -/
structure Inv (s : SysState) : Prop where
  keys_nodup : (storeKeys s.store).Nodup
  statuses : ∀ id job, rawGet s.store id = some job →
    job.status = "queued" ∨ job.status = "processing" ∨
    job.status = "completed" ∨ job.status = "failed"
  task_counts : ∀ id job, rawGet s.store id = some job →
    job.task_count = job.tasks.length
  results_ok : ∀ id job, rawGet s.store id = some job → resultsConsistent job
  queue_nodup : (queueOf s.store).Nodup
  queue_queued : ∀ id ∈ queueOf s.store, ∀ job,
    rawGet s.store id = some job → job.status = "queued"
  worker_state : ∀ w, s.worker = some w →
    (∃ job, rawGet s.store w.job_id = some job ∧ job.status = "processing" ∧
      job.tasks = w.job_data.tasks ∧
      job.task_count = w.job_data.task_count) ∧
    w.job_id ∉ queueOf s.store

/-- Concrete data for evaluating the development on a small run: one task. -/
def wTask : BatchTask := ⟨"t1", [⟨"user", "hi"⟩]⟩

/-- Concrete run: start-up with the in-process fallback backend. -/
def wS0 : SysState := ⟨initBackend false, none⟩

/-- Concrete run: after submitting one job at time 3. -/
def wS1 : SysState :=
  ⟨(submit_batch_job wS0.store 3 "b1" "m" [wTask] 512 7 95 none).1,
    wS0.worker⟩

/-- The record stored for the submitted job of the concrete run. -/
def wJob1 : Job := mkJobData "b1" "m" [wTask] 512 7 95 none 3

/-- Concrete run: after the worker popped the job and marked it `processing`
at time 4. -/
def wS2 : SysState :=
  ⟨update_job_status wS1.store 4 "b1" "processing" none none,
    some ⟨"b1", wJob1⟩⟩

/-- Model-invocation oracle of the concrete run: every call succeeds. -/
def wCalls : Nat → ModelOutcome :=
  fun _ => .success (some "out") (some ⟨1, 2, 3⟩)

/-- Task results of the concrete run. -/
def wRes : List TaskResult :=
  batch_chat_completion ["m"] wJob1.model_id wJob1.tasks wCalls

/-- Concrete run: after the worker completed the job at time 6. -/
def wS3 : SysState :=
  ⟨update_job_status wS2.store 6 "b1" "completed" (some wRes) none, none⟩

/-- The record of the concrete run's job while `processing`. -/
def wJobMid : Job := applyUpdate wJob1 4 "processing" none none

/-- The record the concrete run's job ends in. -/
def wJobFinal : Job := applyUpdate wJobMid 6 "completed" (some wRes) none

/-- A queued record sitting alone in an in-memory store, for concrete
evaluation of the update operations. -/
def wJobQ : Job := mkJobData "j1" "m" [] 512 7 95 none 1

/-- In-memory store holding only `wJobQ`. -/
def wB : StoreBackend := .inMemory [("j1", wJobQ)]

/-- A record that already carries a terminal timestamp. -/
def wJobDone : Job :=
  { wJobQ with status := "completed", completed_at := some 5 }

/-- In-memory store holding only `wJobDone` under the id `j2`. -/
def wBDone : StoreBackend := .inMemory [("j2", wJobDone)]

/-- A request naming a model id absent from the registry. -/
def wReq : BatchGenerationRequest :=
  ⟨"nonexistent-model", [wTask], none, none, none, none⟩

theorem jobKey_inj {a b : String} (h : jobKey a = jobKey b) : a = b := by
  have hd := congrArg String.data h
  simp only [jobKey, String.data_append] at hd
  exact String.ext (List.append_cancel_left hd)

theorem assocSet_cons {α : Type} (e : String × α) (t : List (String × α))
    (k : String) (v : α) :
    assocSet (e :: t) k v =
      if e.1 = k then (k, v) :: t else e :: assocSet t k v := rfl

theorem assocGet_cons {α : Type} (e : String × α) (t : List (String × α))
    (k' : String) :
    assocGet (e :: t) k' = if e.1 = k' then some e.2 else assocGet t k' := by
  by_cases h : e.1 = k'
  · simp [assocGet, List.find?, h]
  · simp [assocGet, List.find?, h, beq_eq_false_iff_ne.mpr h]

theorem assocGet_set_self {α : Type} (l : List (String × α)) (k : String)
    (v : α) : assocGet (assocSet l k v) k = some v := by
  induction l with
  | nil => simp [assocSet, assocGet_cons]
  | cons e t ih =>
    rw [assocSet_cons]
    by_cases h : e.1 = k
    · simp [h, assocGet_cons]
    · simp [h, assocGet_cons, ih]

theorem assocGet_set_other {α : Type} (l : List (String × α)) {k k' : String}
    (v : α) (h : k' ≠ k) : assocGet (assocSet l k v) k' = assocGet l k' := by
  induction l with
  | nil => simp [assocSet, assocGet_cons, Ne.symm h, assocGet]
  | cons e t ih =>
    rw [assocSet_cons]
    by_cases he : e.1 = k
    · rw [if_pos he, assocGet_cons, assocGet_cons, he,
        if_neg (Ne.symm h), if_neg (Ne.symm h)]
    · rw [if_neg he, assocGet_cons, assocGet_cons, ih]

theorem assocGet_of_mem_nodupKeys {α : Type} {l : List (String × α)}
    {e : String × α} (hn : (l.map (·.1)).Nodup) (hm : e ∈ l) :
    assocGet l e.1 = some e.2 := by
  induction l with
  | nil => simp at hm
  | cons p t ih =>
    rw [List.map_cons, List.nodup_cons] at hn
    rcases List.mem_cons.mp hm with rfl | hm
    · simp [assocGet_cons]
    · have hp : p.1 ≠ e.1 :=
        fun hpe => hn.1 (hpe ▸ List.mem_map_of_mem (·.1) hm)
      rw [assocGet_cons, if_neg hp]
      exact ih hn.2 hm

theorem map_fst_assocSet {α : Type} (l : List (String × α)) (k : String)
    (v : α) :
    (assocSet l k v).map (·.1) =
      if k ∈ l.map (·.1) then l.map (·.1) else l.map (·.1) ++ [k] := by
  induction l with
  | nil => simp [assocSet]
  | cons p t ih =>
    rw [assocSet_cons]
    by_cases h : p.1 = k
    · simp [h]
    · have h' : ¬k = p.1 := fun hh => h hh.symm
      by_cases hm : k ∈ t.map (·.1)
      · simp [h, h', hm, ih]
      · simp [h, h', hm, ih]

theorem nodupKeys_assocSet {α : Type} (l : List (String × α)) (k : String)
    (v : α) (hn : (l.map (·.1)).Nodup) :
    ((assocSet l k v).map (·.1)).Nodup := by
  rw [map_fst_assocSet]
  by_cases h : k ∈ l.map (·.1)
  · simpa [h] using hn
  · simp [h, List.nodup_append, hn]

theorem rawGet_storePut_self (b : StoreBackend) (now : Nat) (id : String)
    (job : Job) : rawGet (storePut b now id job) id = some job := by
  cases b <;> simp [rawGet, storePut, assocGet_set_self]

theorem rawGet_storePut_other (b : StoreBackend) (now : Nat) {id : String}
    (job : Job) {id' : String} (h : id' ≠ id) :
    rawGet (storePut b now id job) id' = rawGet b id' := by
  cases b with
  | redis entries q =>
    have hk : jobKey id' ≠ jobKey id := fun hkk => h (jobKey_inj hkk)
    simp [rawGet, storePut, assocGet_set_other _ _ hk]
  | inMemory jobs => simp [rawGet, storePut, assocGet_set_other _ _ h]

theorem queueOf_storePut (b : StoreBackend) (now : Nat) (id : String)
    (job : Job) : queueOf (storePut b now id job) = queueOf b := by
  cases b <;> rfl

theorem rawGet_of_get {b : StoreBackend} {now : Nat} {id : String} {job : Job}
    (h : get_job_status b now id = some job) : rawGet b id = some job := by
  cases b with
  | redis entries q =>
    simp only [get_job_status] at h
    cases hg : assocGet entries (jobKey id) with
    | none => simp [hg] at h
    | some e =>
      rw [hg] at h
      by_cases hlt : now < e.2
      · simp only [hlt, if_true, Option.some.injEq] at h
        simp [rawGet, hg, h]
      · simp [hlt] at h
  | inMemory jobs => simpa [get_job_status, rawGet] using h

theorem get_none_of_rawGet_none {b : StoreBackend} {now : Nat} {id : String}
    (h : rawGet b id = none) : get_job_status b now id = none := by
  cases b with
  | redis entries q =>
    simp only [rawGet, Option.map_eq_none'] at h
    simp [get_job_status, h]
  | inMemory jobs => simpa [get_job_status, rawGet] using h

theorem update_of_get_none {b : StoreBackend} {now : Nat} {id : String}
    {st : String} {rs : Option (List TaskResult)} {er : Option String}
    (h : get_job_status b now id = none) :
    update_job_status b now id st rs er = b := by
  simp [update_job_status, h]

theorem rawGet_update_other (b : StoreBackend) (now : Nat) {id : String}
    (st : String) (rs : Option (List TaskResult)) (er : Option String)
    {id' : String} (h : id' ≠ id) :
    rawGet (update_job_status b now id st rs er) id' = rawGet b id' := by
  unfold update_job_status
  cases hg : get_job_status b now id with
  | none => rfl
  | some jd => exact rawGet_storePut_other b now _ h

theorem rawGet_update_self {b : StoreBackend} {now : Nat} {id : String}
    (st : String) (rs : Option (List TaskResult)) (er : Option String)
    {jd : Job} (h : get_job_status b now id = some jd) :
    rawGet (update_job_status b now id st rs er) id =
      some (applyUpdate jd now st rs er) := by
  simp [update_job_status, h, rawGet_storePut_self]

theorem queueOf_update (b : StoreBackend) (now : Nat) (id st : String)
    (rs : Option (List TaskResult)) (er : Option String) :
    queueOf (update_job_status b now id st rs er) = queueOf b := by
  unfold update_job_status
  cases hg : get_job_status b now id with
  | none => rfl
  | some jd => exact queueOf_storePut b now id _

theorem rawGet_submit_self (b : StoreBackend) (now : Nat)
    (fresh model_id : String) (tasks : List BatchTask) (mt tp tpp : Nat)
    (meta : Option (List (String × String))) :
    rawGet (submit_batch_job b now fresh model_id tasks mt tp tpp meta).1
      fresh = some (mkJobData fresh model_id tasks mt tp tpp meta now) := by
  cases b <;> simp [rawGet, submit_batch_job, assocGet_set_self]

theorem rawGet_submit_other (b : StoreBackend) (now : Nat)
    {fresh : String} (model_id : String) (tasks : List BatchTask)
    (mt tp tpp : Nat) (meta : Option (List (String × String)))
    {id : String} (h : id ≠ fresh) :
    rawGet (submit_batch_job b now fresh model_id tasks mt tp tpp meta).1 id =
      rawGet b id := by
  cases b with
  | redis entries q =>
    have hk : jobKey id ≠ jobKey fresh := fun hkk => h (jobKey_inj hkk)
    simp [rawGet, submit_batch_job, assocGet_set_other _ _ hk]
  | inMemory jobs => simp [rawGet, submit_batch_job, assocGet_set_other _ _ h]

theorem applyUpdate_status (jd : Job) (now : Nat) (st : String)
    (rs : Option (List TaskResult)) (er : Option String) :
    (applyUpdate jd now st rs er).status = st := by
  cases rs <;> cases er <;> simp only [applyUpdate] <;> split_ifs <;> rfl

theorem applyUpdate_tasks (jd : Job) (now : Nat) (st : String)
    (rs : Option (List TaskResult)) (er : Option String) :
    (applyUpdate jd now st rs er).tasks = jd.tasks := by
  cases rs <;> cases er <;> simp only [applyUpdate] <;> split_ifs <;> rfl

theorem applyUpdate_task_count (jd : Job) (now : Nat) (st : String)
    (rs : Option (List TaskResult)) (er : Option String) :
    (applyUpdate jd now st rs er).task_count = jd.task_count := by
  cases rs <;> cases er <;> simp only [applyUpdate] <;> split_ifs <;> rfl

theorem applyUpdate_started_at (jd : Job) (now : Nat) (st : String)
    (rs : Option (List TaskResult)) (er : Option String) :
    (applyUpdate jd now st rs er).started_at =
      if st = "processing" ∧ truthyNat jd.started_at = false then some now
      else jd.started_at := by
  cases rs <;> cases er <;> simp only [applyUpdate] <;> split_ifs <;> rfl

theorem applyUpdate_completed_at (jd : Job) (now : Nat) (st : String)
    (rs : Option (List TaskResult)) (er : Option String) :
    (applyUpdate jd now st rs er).completed_at =
      if st = "completed" ∨ st = "failed" then some now
      else jd.completed_at := by
  cases rs <;> cases er <;> simp only [applyUpdate] <;> split_ifs <;> rfl

theorem applyUpdate_results (jd : Job) (now : Nat) (st : String)
    (rs : Option (List TaskResult)) (er : Option String) :
    (applyUpdate jd now st rs er).results =
      match rs with
      | some l => if l.isEmpty then jd.results else some l
      | none => jd.results := by
  cases rs <;> cases er <;> simp only [applyUpdate] <;> split_ifs <;> rfl

theorem applyUpdate_completed_count (jd : Job) (now : Nat) (st : String)
    (rs : Option (List TaskResult)) (er : Option String) :
    (applyUpdate jd now st rs er).completed_count =
      match rs with
      | some l =>
          if l.isEmpty then jd.completed_count
          else (l.filter (fun r => !truthyStr r.error)).length
      | none => jd.completed_count := by
  cases rs <;> cases er <;> simp only [applyUpdate] <;> split_ifs <;> rfl

theorem applyUpdate_failed_count (jd : Job) (now : Nat) (st : String)
    (rs : Option (List TaskResult)) (er : Option String) :
    (applyUpdate jd now st rs er).failed_count =
      match rs with
      | some l =>
          if l.isEmpty then jd.failed_count
          else (l.filter (fun r => truthyStr r.error)).length
      | none => jd.failed_count := by
  cases rs <;> cases er <;> simp only [applyUpdate] <;> split_ifs <;> rfl

theorem applyUpdate_error (jd : Job) (now : Nat) (st : String)
    (rs : Option (List TaskResult)) (er : Option String) :
    (applyUpdate jd now st rs er).error =
      match er with
      | some e => if e = "" then jd.error else some e
      | none => jd.error := by
  cases rs <;> cases er <;> simp only [applyUpdate] <;> split_ifs <;> rfl

theorem length_filter_not_add_length_filter {α : Type} (l : List α)
    (p : α → Bool) :
    (l.filter (fun a => !(p a))).length + (l.filter p).length = l.length := by
  induction l with
  | nil => rfl
  | cons a t ih => by_cases h : p a <;> simp [List.filter, h] <;> omega

theorem taskResultFor_id (models : List String) (model_id : String)
    (t : BatchTask) (call : ModelOutcome) :
    (taskResultFor models model_id t call).id = t.id := by
  unfold taskResultFor
  cases chat_completion models model_id call <;> rfl

theorem batchTasksFrom_length (models : List String) (model_id : String)
    (calls : Nat → ModelOutcome) :
    ∀ (ts : List BatchTask) (i : Nat),
      (batchTasksFrom models model_id calls ts i).length = ts.length := by
  intro ts
  induction ts with
  | nil => intro i; rfl
  | cons t ts ih => intro i; simp [batchTasksFrom, ih]

theorem batchTasksFrom_get (models : List String) (model_id : String)
    (calls : Nat → ModelOutcome) :
    ∀ (ts : List BatchTask) (i k : Nat)
      (h : k < (batchTasksFrom models model_id calls ts i).length)
      (h' : k < ts.length),
      (batchTasksFrom models model_id calls ts i).get ⟨k, h⟩ =
        taskResultFor models model_id (ts.get ⟨k, h'⟩) (calls (i + k)) := by
  intro ts
  induction ts with
  | nil => intro i k h h'; simp at h'
  | cons t ts ih =>
    intro i k h h'
    cases k with
    | zero => simp [batchTasksFrom]
    | succ k' =>
      have hlt' : k' < ts.length := Nat.lt_of_succ_lt_succ h'
      have hlt : k' < (batchTasksFrom models model_id calls ts (i + 1)).length := by
        rw [batchTasksFrom_length]
        exact hlt'
      have hstep :
          (batchTasksFrom models model_id calls (t :: ts) i).get ⟨k' + 1, h⟩ =
            (batchTasksFrom models model_id calls ts (i + 1)).get ⟨k', hlt⟩ :=
        rfl
      rw [hstep, ih (i + 1) k' hlt hlt']
      have harith : i + 1 + k' = i + (k' + 1) := by omega
      rw [harith]
      rfl

theorem batch_chat_completion_length (models : List String)
    (model_id : String) (tasks : List BatchTask) (calls : Nat → ModelOutcome) :
    (batch_chat_completion models model_id tasks calls).length =
      tasks.length :=
  batchTasksFrom_length models model_id calls tasks 0

theorem batch_chat_completion_get (models : List String) (model_id : String)
    (tasks : List BatchTask) (calls : Nat → ModelOutcome) (k : Nat)
    (h : k < (batch_chat_completion models model_id tasks calls).length)
    (h' : k < tasks.length) :
    (batch_chat_completion models model_id tasks calls).get ⟨k, h⟩ =
      taskResultFor models model_id (tasks.get ⟨k, h'⟩) (calls k) := by
  have := batchTasksFrom_get models model_id calls tasks 0 k h h'
  simpa [batch_chat_completion] using this

theorem rawGet_update_cases (b : StoreBackend) (now : Nat) (id st : String)
    (rs : Option (List TaskResult)) (er : Option String) (id' : String)
    (job' : Job)
    (h' : rawGet (update_job_status b now id st rs er) id' = some job') :
    (id' = id ∧ ∃ jd, get_job_status b now id = some jd ∧
        job' = applyUpdate jd now st rs er) ∨
      rawGet b id' = some job' := by
  by_cases he : id' = id
  · subst he
    cases hget : get_job_status b now id' with
    | none =>
      right
      rw [update_of_get_none hget] at h'
      exact h'
    | some jd =>
      left
      refine ⟨rfl, jd, rfl, ?_⟩
      rw [rawGet_update_self st rs er hget] at h'
      exact (Option.some.inj h').symm
  · right
    rw [rawGet_update_other b now st rs er he] at h'
    exact h'

theorem rawGet_submit_cases (b : StoreBackend) (now : Nat)
    (fresh model_id : String) (tasks : List BatchTask) (mt tp tpp : Nat)
    (meta : Option (List (String × String))) (id : String) (job' : Job)
    (h' : rawGet (submit_batch_job b now fresh model_id tasks mt tp tpp
        meta).1 id = some job') :
    (id = fresh ∧ job' = mkJobData fresh model_id tasks mt tp tpp meta now) ∨
      (id ≠ fresh ∧ rawGet b id = some job') := by
  by_cases he : id = fresh
  · subst he
    rw [rawGet_submit_self] at h'
    exact Or.inl ⟨rfl, (Option.some.inj h').symm⟩
  · right
    rw [rawGet_submit_other b now model_id tasks mt tp tpp meta he] at h'
    exact ⟨he, h'⟩

theorem get_next_job_spec {b : StoreBackend} {jid : String}
    {b' : StoreBackend} (h : get_next_job b = (some jid, b')) :
    (∀ id, rawGet b' id = rawGet b id) ∧
      queueOf b' = (queueOf b).dropLast ∧ storeKeys b' = storeKeys b := by
  cases b with
  | redis entries q =>
    cases hq : q.getLast? with
    | none => simp [get_next_job, hq] at h
    | some j =>
      simp only [get_next_job, hq, Prod.mk.injEq] at h
      rw [← h.2]
      exact ⟨fun id => rfl, rfl, rfl⟩
  | inMemory jobs =>
    simp only [get_next_job, Prod.mk.injEq] at h
    rw [← h.2]
    exact ⟨fun id => rfl, rfl, rfl⟩

theorem get_next_job_redis_spec {entries : List (String × (Job × Nat))}
    {q : List String} {jid : String} {b' : StoreBackend}
    (h : get_next_job (.redis entries q) = (some jid, b')) :
    q.getLast? = some jid ∧ b' = .redis entries q.dropLast := by
  cases hq : q.getLast? with
  | none => simp [get_next_job, hq] at h
  | some j =>
    simp only [get_next_job, hq, Prod.mk.injEq, Option.some.injEq] at h
    exact ⟨by rw [h.1], h.2.symm⟩

theorem get_next_job_inMemory_spec {jobs : List (String × Job)}
    {jid : String} {b' : StoreBackend}
    (h : get_next_job (.inMemory jobs) = (some jid, b')) :
    b' = .inMemory jobs ∧
      ∃ e, e ∈ jobs ∧ e.1 = jid ∧ e.2.status = "queued" := by
  simp only [get_next_job, Prod.mk.injEq] at h
  refine ⟨h.2.symm, ?_⟩
  rcases Option.map_eq_some'.mp h.1 with ⟨e, hfind, hfst⟩
  refine ⟨e, List.mem_of_find?_eq_some hfind, hfst, ?_⟩
  have := List.find?_some hfind
  simpa [beq_iff_eq] using this

theorem storeKeys_storePut_nodup (b : StoreBackend) (now : Nat) (id : String)
    (job : Job) (hn : (storeKeys b).Nodup) :
    (storeKeys (storePut b now id job)).Nodup := by
  cases b with
  | redis entries q => exact nodupKeys_assocSet entries (jobKey id) _ hn
  | inMemory jobs => exact nodupKeys_assocSet jobs id job hn

theorem storeKeys_update_nodup (b : StoreBackend) (now : Nat) (id st : String)
    (rs : Option (List TaskResult)) (er : Option String)
    (hn : (storeKeys b).Nodup) :
    (storeKeys (update_job_status b now id st rs er)).Nodup := by
  unfold update_job_status
  cases hget : get_job_status b now id with
  | none => exact hn
  | some jd => exact storeKeys_storePut_nodup b now id _ hn

theorem storeKeys_submit_nodup (b : StoreBackend) (now : Nat)
    (fresh model_id : String) (tasks : List BatchTask) (mt tp tpp : Nat)
    (meta : Option (List (String × String))) (hn : (storeKeys b).Nodup) :
    (storeKeys (submit_batch_job b now fresh model_id tasks mt tp tpp
      meta).1).Nodup := by
  cases b with
  | redis entries q => exact nodupKeys_assocSet entries (jobKey fresh) _ hn
  | inMemory jobs => exact nodupKeys_assocSet jobs fresh _ hn

theorem queueOf_submit (b : StoreBackend) (now : Nat) (fresh model_id : String)
    (tasks : List BatchTask) (mt tp tpp : Nat)
    (meta : Option (List (String × String))) :
    queueOf (submit_batch_job b now fresh model_id tasks mt tp tpp meta).1 =
      match b with
      | .redis _ q => fresh :: q
      | .inMemory _ => [] := by
  cases b <;> rfl

theorem getLast?_not_mem_dropLast (l : List String) (x : String)
    (hn : l.Nodup) (h : l.getLast? = some x) : x ∉ l.dropLast := by
  induction l with
  | nil => simp at h
  | cons a t ih =>
    cases t with
    | nil => simp
    | cons b t' =>
      rw [List.getLast?_cons_cons] at h
      have hn' : (b :: t').Nodup := hn.of_cons
      have hna : a ∉ b :: t' := (List.nodup_cons.mp hn).1
      intro hmem
      rw [List.dropLast_cons₂, List.mem_cons] at hmem
      rcases hmem with rfl | hmem
      · exact hna (List.mem_of_mem_getLast? h)
      · exact ih hn' h hmem

theorem inv_init (useRedis : Bool) : Inv ⟨initBackend useRedis, none⟩ := by
  cases useRedis <;>
    refine ⟨?_, ?_, ?_, ?_, ?_, ?_, ?_⟩ <;>
      simp [initBackend, storeKeys, rawGet, assocGet, queueOf, List.find?]

theorem applyUpdate_results_none (jd : Job) (now : Nat) (st : String)
    (er : Option String) :
    (applyUpdate jd now st none er).results = jd.results := by
  cases er <;> simp only [applyUpdate] <;> split_ifs <;> rfl

theorem applyUpdate_results_some (jd : Job) (now : Nat) (st : String)
    (rsl : List TaskResult) (er : Option String) :
    (applyUpdate jd now st (some rsl) er).results =
      if rsl.isEmpty then jd.results else some rsl := by
  cases er <;> simp only [applyUpdate] <;> split_ifs <;> rfl

theorem applyUpdate_completed_count_none (jd : Job) (now : Nat) (st : String)
    (er : Option String) :
    (applyUpdate jd now st none er).completed_count = jd.completed_count := by
  cases er <;> simp only [applyUpdate] <;> split_ifs <;> rfl

theorem applyUpdate_completed_count_some (jd : Job) (now : Nat) (st : String)
    (rsl : List TaskResult) (er : Option String) :
    (applyUpdate jd now st (some rsl) er).completed_count =
      if rsl.isEmpty then jd.completed_count
      else (rsl.filter (fun r => !truthyStr r.error)).length := by
  cases er <;> simp only [applyUpdate] <;> split_ifs <;> rfl

theorem applyUpdate_failed_count_none (jd : Job) (now : Nat) (st : String)
    (er : Option String) :
    (applyUpdate jd now st none er).failed_count = jd.failed_count := by
  cases er <;> simp only [applyUpdate] <;> split_ifs <;> rfl

theorem applyUpdate_failed_count_some (jd : Job) (now : Nat) (st : String)
    (rsl : List TaskResult) (er : Option String) :
    (applyUpdate jd now st (some rsl) er).failed_count =
      if rsl.isEmpty then jd.failed_count
      else (rsl.filter (fun r => truthyStr r.error)).length := by
  cases er <;> simp only [applyUpdate] <;> split_ifs <;> rfl

theorem resultsConsistent_applyUpdate_none (jd : Job) (now : Nat)
    (st : String) (er : Option String) (h : resultsConsistent jd) :
    resultsConsistent (applyUpdate jd now st none er) := by
  intro rs hrs
  rw [applyUpdate_results_none] at hrs
  rcases h rs hrs with ⟨h1, h2, h3⟩
  have hts := applyUpdate_tasks jd now st none er
  refine ⟨?_, ?_, ?_⟩
  · rw [applyUpdate_task_count]; exact h1
  · intro k hk1 hk2
    have hk2' : k < jd.tasks.length := hts ▸ hk2
    rw [List.get_of_eq hts ⟨k, hk2⟩]
    exact h2 k hk1 hk2'
  · rw [applyUpdate_task_count, applyUpdate_completed_count_none,
      applyUpdate_failed_count_none]
    exact h3

theorem resultsConsistent_applyUpdate_some (jd : Job) (now : Nat)
    (st : String) (er : Option String) (rsl : List TaskResult)
    (hlen : rsl.length = jd.task_count)
    (hids : ∀ (k : Nat) (h1 : k < rsl.length) (h2 : k < jd.tasks.length),
      (rsl.get ⟨k, h1⟩).id = (jd.tasks.get ⟨k, h2⟩).id)
    (hold : resultsConsistent jd) :
    resultsConsistent (applyUpdate jd now st (some rsl) er) := by
  intro rs hrs
  rw [applyUpdate_results_some] at hrs
  have hts := applyUpdate_tasks jd now st (some rsl) er
  by_cases hempty : rsl.isEmpty = true
  · rw [if_pos hempty] at hrs
    rcases hold rs hrs with ⟨h1, h2, h3⟩
    refine ⟨?_, ?_, ?_⟩
    · rw [applyUpdate_task_count]; exact h1
    · intro k hk1 hk2
      have hk2' : k < jd.tasks.length := hts ▸ hk2
      rw [List.get_of_eq hts ⟨k, hk2⟩]
      exact h2 k hk1 hk2'
    · rw [applyUpdate_task_count, applyUpdate_completed_count_some,
        applyUpdate_failed_count_some, if_pos hempty, if_pos hempty]
      exact h3
  · rw [if_neg hempty] at hrs
    obtain rfl : rsl = rs := Option.some.inj hrs
    refine ⟨?_, ?_, ?_⟩
    · rw [applyUpdate_task_count]; exact hlen
    · intro k hk1 hk2
      have hk2' : k < jd.tasks.length := hts ▸ hk2
      rw [List.get_of_eq hts ⟨k, hk2⟩]
      exact hids k hk1 hk2'
    · rw [applyUpdate_task_count, applyUpdate_completed_count_some,
        applyUpdate_failed_count_some, if_neg hempty, if_neg hempty,
        length_filter_not_add_length_filter rsl (fun r => truthyStr r.error)]
      exact hlen

theorem inv_step {s s' : SysState} {now : Nat} (hinv : Inv s)
    (hstep : Step s now s') : Inv s' := by
  cases hstep with
  | submit fresh model_id tasks mt tp tpp meta hfs hfq hfw =>
    refine ⟨?_, ?_, ?_, ?_, ?_, ?_, ?_⟩
    · exact storeKeys_submit_nodup s.store now fresh model_id tasks
        mt tp tpp meta hinv.keys_nodup
    · intro id job h
      rcases rawGet_submit_cases s.store now fresh model_id tasks mt tp tpp
          meta id job h with ⟨rfl, rfl⟩ | ⟨hne, hold⟩
      · left; rfl
      · exact hinv.statuses id job hold
    · intro id job h
      rcases rawGet_submit_cases s.store now fresh model_id tasks mt tp tpp
          meta id job h with ⟨rfl, rfl⟩ | ⟨hne, hold⟩
      · rfl
      · exact hinv.task_counts id job hold
    · intro id job h
      rcases rawGet_submit_cases s.store now fresh model_id tasks mt tp tpp
          meta id job h with ⟨rfl, rfl⟩ | ⟨hne, hold⟩
      · intro rs hrs; cases hrs
      · exact hinv.results_ok id job hold
    · show (queueOf (submit_batch_job s.store now fresh model_id tasks
        mt tp tpp meta).1).Nodup
      rw [queueOf_submit]
      cases hb : s.store with
      | redis entries q =>
        have hq : queueOf s.store = q := by rw [hb]; rfl
        refine List.nodup_cons.mpr ⟨?_, ?_⟩
        · rw [← hq]; exact hfq
        · rw [← hq]; exact hinv.queue_nodup
      | inMemory jobs => exact List.nodup_nil
    · intro id hid job h
      have hid' : id ∈ queueOf (submit_batch_job s.store now fresh model_id
          tasks mt tp tpp meta).1 := hid
      rw [queueOf_submit] at hid'
      rcases rawGet_submit_cases s.store now fresh model_id tasks mt tp tpp
          meta id job h with ⟨rfl, rfl⟩ | ⟨hne, hold⟩
      · rfl
      · cases hb : s.store with
        | redis entries q =>
          rw [hb] at hid'
          rcases List.mem_cons.mp hid' with rfl | hmem
          · exact absurd rfl hne
          · refine hinv.queue_queued id ?_ job hold
            rw [hb]; exact hmem
        | inMemory jobs =>
          rw [hb] at hid'
          simp at hid'
    · intro w hw
      have hww := hinv.worker_state w hw
      have hne : w.job_id ≠ fresh := hfw w hw
      rcases hww with ⟨⟨job, hjob, hst, hts, htc⟩, hnq⟩
      refine ⟨⟨job, ?_, hst, hts, htc⟩, ?_⟩
      · rw [rawGet_submit_other s.store now model_id tasks mt tp tpp meta hne]
        exact hjob
      · show w.job_id ∉ queueOf (submit_batch_job s.store now fresh model_id
          tasks mt tp tpp meta).1
        rw [queueOf_submit]
        cases hb : s.store with
        | redis entries q =>
          intro hmem
          rcases List.mem_cons.mp hmem with h1 | h1
          · exact hne h1
          · refine hnq ?_
            rw [hb]; exact h1
        | inMemory jobs => simp
  | dequeueMiss jid b' hidle hpop hmiss =>
    obtain ⟨hraw, hqueue, hkeys⟩ := get_next_job_spec hpop
    refine ⟨?_, ?_, ?_, ?_, ?_, ?_, ?_⟩
    · show (storeKeys b').Nodup
      rw [hkeys]; exact hinv.keys_nodup
    · intro id job h
      rw [show rawGet b' id = rawGet s.store id from hraw id] at h
      exact hinv.statuses id job h
    · intro id job h
      rw [show rawGet b' id = rawGet s.store id from hraw id] at h
      exact hinv.task_counts id job h
    · intro id job h
      rw [show rawGet b' id = rawGet s.store id from hraw id] at h
      exact hinv.results_ok id job h
    · show (queueOf b').Nodup
      rw [hqueue]
      exact hinv.queue_nodup.sublist (List.dropLast_sublist _)
    · intro id hid job h
      have hid' : id ∈ queueOf b' := hid
      rw [hqueue] at hid'
      have hidq : id ∈ queueOf s.store :=
        (List.dropLast_sublist _).subset hid'
      rw [show rawGet b' id = rawGet s.store id from hraw id] at h
      exact hinv.queue_queued id hidq job h
    · intro w hw; cases hw
  | dequeueHit jid b' jd hidle hpop hhit =>
    obtain ⟨hraw, hqueue, hkeys⟩ := get_next_job_spec hpop
    have hjdraw : rawGet b' jid = some jd := rawGet_of_get hhit
    have hjdraw0 : rawGet s.store jid = some jd := by
      rw [← hraw jid]; exact hjdraw
    have hnotq : jid ∉ queueOf b' := by
      rw [hqueue]
      cases hb : s.store with
      | redis entries q =>
        obtain ⟨hlast, rfl⟩ := get_next_job_redis_spec (hb ▸ hpop)
        have hqn : q.Nodup := by
          have hq := hinv.queue_nodup
          rw [hb] at hq
          exact hq
        exact getLast?_not_mem_dropLast q jid hqn hlast
      | inMemory jobs => simp [queueOf]
    refine ⟨?_, ?_, ?_, ?_, ?_, ?_, ?_⟩
    · show (storeKeys (update_job_status b' now jid "processing" none
        none)).Nodup
      refine storeKeys_update_nodup b' now jid _ none none ?_
      rw [hkeys]; exact hinv.keys_nodup
    · intro id job h
      rcases rawGet_update_cases b' now jid "processing" none none id job h
        with ⟨rfl, jd', hget', rfl⟩ | hold
      · right; left; exact applyUpdate_status jd' now "processing" none none
      · rw [hraw id] at hold
        exact hinv.statuses id job hold
    · intro id job h
      rcases rawGet_update_cases b' now jid "processing" none none id job h
        with ⟨rfl, jd', hget', rfl⟩ | hold
      · rw [applyUpdate_task_count, applyUpdate_tasks]
        have : rawGet b' id = some jd' := rawGet_of_get hget'
        rw [hraw id] at this
        exact hinv.task_counts id jd' this
      · rw [hraw id] at hold
        exact hinv.task_counts id job hold
    · intro id job h
      rcases rawGet_update_cases b' now jid "processing" none none id job h
        with ⟨rfl, jd', hget', rfl⟩ | hold
      · refine resultsConsistent_applyUpdate_none jd' now "processing" none ?_
        have : rawGet b' id = some jd' := rawGet_of_get hget'
        rw [hraw id] at this
        exact hinv.results_ok id jd' this
      · rw [hraw id] at hold
        exact hinv.results_ok id job hold
    · show (queueOf (update_job_status b' now jid "processing" none
        none)).Nodup
      rw [queueOf_update, hqueue]
      exact hinv.queue_nodup.sublist (List.dropLast_sublist _)
    · intro id hid job h
      have hid' : id ∈ queueOf (update_job_status b' now jid "processing"
          none none) := hid
      rw [queueOf_update] at hid'
      have hne : id ≠ jid := fun heq => hnotq (heq ▸ hid')
      rcases rawGet_update_cases b' now jid "processing" none none id job h
        with ⟨rfl, _, _, _⟩ | hold
      · exact absurd rfl hne
      · rw [hraw id] at hold
        have hidq : id ∈ queueOf s.store := by
          rw [hqueue] at hid'
          exact (List.dropLast_sublist _).subset hid'
        exact hinv.queue_queued id hidq job hold
    · intro w hw
      obtain rfl : w = ⟨jid, jd⟩ := Option.some.inj hw.symm
      refine ⟨⟨applyUpdate jd now "processing" none none, ?_, ?_, ?_, ?_⟩, ?_⟩
      · exact rawGet_update_self "processing" none none hhit
      · exact applyUpdate_status jd now "processing" none none
      · exact applyUpdate_tasks jd now "processing" none none
      · exact applyUpdate_task_count jd now "processing" none none
      · show jid ∉ queueOf (update_job_status b' now jid "processing" none
          none)
        rw [queueOf_update]
        exact hnotq
  | finishOk w models calls hbusy =>
    rcases hinv.worker_state w hbusy with ⟨⟨jobP, hjobP, hstP, htsP, htcP⟩,
      hnqP⟩
    refine ⟨?_, ?_, ?_, ?_, ?_, ?_, ?_⟩
    · exact storeKeys_update_nodup s.store now w.job_id _ _ none
        hinv.keys_nodup
    · intro id job h
      rcases rawGet_update_cases s.store now w.job_id "completed" _ none id
        job h with ⟨rfl, jd', hget', rfl⟩ | hold
      · right; right; left
        exact applyUpdate_status jd' now "completed" _ none
      · exact hinv.statuses id job hold
    · intro id job h
      rcases rawGet_update_cases s.store now w.job_id "completed" _ none id
        job h with ⟨rfl, jd', hget', rfl⟩ | hold
      · rw [applyUpdate_task_count, applyUpdate_tasks]
        exact hinv.task_counts w.job_id jd' (rawGet_of_get hget')
      · exact hinv.task_counts id job hold
    · intro id job h
      rcases rawGet_update_cases s.store now w.job_id "completed" _ none id
        job h with ⟨rfl, jd', hget', rfl⟩ | hold
      · have hraw' : rawGet s.store w.job_id = some jd' :=
          rawGet_of_get hget'
        have hjd' : jd' = jobP := by
          rw [hraw'] at hjobP
          exact Option.some.inj hjobP
        subst hjd'
        refine resultsConsistent_applyUpdate_some jd' now "completed" none
          (batch_chat_completion models w.job_data.model_id w.job_data.tasks
            calls) ?_ ?_ (hinv.results_ok w.job_id jd' hraw')
        · rw [batch_chat_completion_length, ← htsP,
            ← hinv.task_counts w.job_id jd' hraw']
        · intro k h1 h2
          have h2w : k < w.job_data.tasks.length := htsP ▸ h2
          rw [batch_chat_completion_get models w.job_data.model_id
            w.job_data.tasks calls k h1 h2w, taskResultFor_id,
            List.get_of_eq htsP ⟨k, h2⟩]
      · exact hinv.results_ok id job hold
    · show (queueOf (update_job_status s.store now w.job_id "completed" _
        none)).Nodup
      rw [queueOf_update]
      exact hinv.queue_nodup
    · intro id hid job h
      have hid' : id ∈ queueOf (update_job_status s.store now w.job_id
          "completed" _ none) := hid
      rw [queueOf_update] at hid'
      have hne : id ≠ w.job_id := fun heq => hnqP (heq ▸ hid')
      rcases rawGet_update_cases s.store now w.job_id "completed" _ none id
        job h with ⟨rfl, _, _, _⟩ | hold
      · exact absurd rfl hne
      · exact hinv.queue_queued id hid' job hold
    · intro w' hw'; cases hw'
  | finishFail w emsg hbusy =>
    rcases hinv.worker_state w hbusy with ⟨⟨jobP, hjobP, hstP, htsP, htcP⟩,
      hnqP⟩
    refine ⟨?_, ?_, ?_, ?_, ?_, ?_, ?_⟩
    · exact storeKeys_update_nodup s.store now w.job_id _ none _
        hinv.keys_nodup
    · intro id job h
      rcases rawGet_update_cases s.store now w.job_id "failed" none _ id
        job h with ⟨rfl, jd', hget', rfl⟩ | hold
      · right; right; right
        exact applyUpdate_status jd' now "failed" none _
      · exact hinv.statuses id job hold
    · intro id job h
      rcases rawGet_update_cases s.store now w.job_id "failed" none _ id
        job h with ⟨rfl, jd', hget', rfl⟩ | hold
      · rw [applyUpdate_task_count, applyUpdate_tasks]
        exact hinv.task_counts w.job_id jd' (rawGet_of_get hget')
      · exact hinv.task_counts id job hold
    · intro id job h
      rcases rawGet_update_cases s.store now w.job_id "failed" none _ id
        job h with ⟨rfl, jd', hget', rfl⟩ | hold
      · exact resultsConsistent_applyUpdate_none jd' now "failed" _
          (hinv.results_ok w.job_id jd' (rawGet_of_get hget'))
      · exact hinv.results_ok id job hold
    · show (queueOf (update_job_status s.store now w.job_id "failed" none
        _)).Nodup
      rw [queueOf_update]
      exact hinv.queue_nodup
    · intro id hid job h
      have hid' : id ∈ queueOf (update_job_status s.store now w.job_id
          "failed" none _) := hid
      rw [queueOf_update] at hid'
      have hne : id ≠ w.job_id := fun heq => hnqP (heq ▸ hid')
      rcases rawGet_update_cases s.store now w.job_id "failed" none _ id
        job h with ⟨rfl, _, _, _⟩ | hold
      · exact absurd rfl hne
      · exact hinv.queue_queued id hid' job hold
    · intro w' hw'; cases hw'

theorem reach_inv {s : SysState} (hr : Reach s) : Inv s := by
  induction hr with
  | init useRedis => exact inv_init useRedis
  | step s s' now hr hs ih => exact inv_step ih hs

theorem statusRank_queued : statusRank "queued" = 0 := rfl

theorem statusRank_processing : statusRank "processing" = 1 := rfl

theorem statusRank_completed : statusRank "completed" = 2 := rfl

theorem statusRank_failed : statusRank "failed" = 2 := rfl

/-- Status of the record a dequeued id denotes, before it is marked
`processing`: the popped id always names a `queued` record. -/
theorem dequeued_job_queued {s : SysState} (hinv : Inv s) {jid : String}
    {b' : StoreBackend} {jd : Job}
    (hpop : get_next_job s.store = (some jid, b'))
    (hraw0 : rawGet s.store jid = some jd) : jd.status = "queued" := by
  cases hb : s.store with
  | redis entries q =>
    obtain ⟨hlast, _⟩ := get_next_job_redis_spec (hb ▸ hpop)
    have hmem : jid ∈ queueOf s.store := by
      rw [hb]
      exact List.mem_of_mem_getLast? hlast
    exact hinv.queue_queued jid hmem jd hraw0
  | inMemory jobs =>
    obtain ⟨_, e, hmem, hfst, hstq⟩ := get_next_job_inMemory_spec (hb ▸ hpop)
    have hn : (jobs.map (·.1)).Nodup := by
      have hk := hinv.keys_nodup
      rw [hb] at hk
      exact hk
    have : assocGet jobs e.1 = some e.2 := assocGet_of_mem_nodupKeys hn hmem
    rw [hfst] at this
    have hjd : rawGet s.store jid = some e.2 := by
      rw [hb]
      exact this
    rw [hraw0] at hjd
    rw [Option.some.inj hjd]
    exact hstq

/-- C1: along every step of the system reachable through the public
operations (submission, worker-driven updates, status lookups), a stored
job's status only ever moves forward in the order
`queued → processing → {completed, failed}`, and a record that becomes
`completed` or `failed` in a step was `processing` before it. -/
theorem C1_status_monotone {s s' : SysState} {now : Nat} (hr : Reach s)
    (hs : Step s now s') (id : String) (job job' : Job)
    (h : rawGet s.store id = some job)
    (h' : rawGet s'.store id = some job') :
    statusRank job.status ≤ statusRank job'.status ∧
      ((job'.status = "completed" ∨ job'.status = "failed") →
        job.status = job'.status ∨ job.status = "processing") := by
  have hinv := reach_inv hr
  cases hs with
  | submit fresh model_id tasks mt tp tpp meta hfs hfq hfw =>
    rcases rawGet_submit_cases s.store now fresh model_id tasks mt tp tpp
        meta id job' h' with ⟨rfl, rfl⟩ | ⟨hne, hold⟩
    · rw [h] at hfs; cases hfs
    · obtain rfl : job = job' := Option.some.inj (h.symm.trans hold)
      exact ⟨le_refl _, fun _ => Or.inl rfl⟩
  | dequeueMiss jid b' hidle hpop hmiss =>
    obtain ⟨hraw, _, _⟩ := get_next_job_spec hpop
    have hold : rawGet s.store id = some job' := by
      rw [← hraw id]; exact h'
    obtain rfl : job = job' := Option.some.inj (h.symm.trans hold)
    exact ⟨le_refl _, fun _ => Or.inl rfl⟩
  | dequeueHit jid b' jd hidle hpop hhit =>
    obtain ⟨hraw, hqueue, hkeys⟩ := get_next_job_spec hpop
    rcases rawGet_update_cases b' now jid "processing" none none id job' h'
      with ⟨rfl, jd2, hget2, rfl⟩ | hold
    · have hraw0 : rawGet s.store id = some jd := by
        rw [← hraw id]; exact rawGet_of_get hhit
      obtain rfl : job = jd := Option.some.inj (h.symm.trans hraw0)
      have hq : job.status = "queued" := dequeued_job_queued hinv hpop h
      rw [applyUpdate_status, hq, statusRank_queued, statusRank_processing]
      exact ⟨by omega, fun hcf => absurd hcf (by decide)⟩
    · rw [hraw id] at hold
      obtain rfl : job = job' := Option.some.inj (h.symm.trans hold)
      exact ⟨le_refl _, fun _ => Or.inl rfl⟩
  | finishOk w models calls hbusy =>
    rcases hinv.worker_state w hbusy with ⟨⟨jobP, hjobP, hstP, _, _⟩, _⟩
    rcases rawGet_update_cases s.store now w.job_id "completed" _ none id
      job' h' with ⟨rfl, jd2, hget2, rfl⟩ | hold
    · obtain rfl : job = jobP := Option.some.inj (h.symm.trans hjobP)
      rw [applyUpdate_status, hstP, statusRank_processing,
        statusRank_completed]
      exact ⟨by omega, fun _ => Or.inr rfl⟩
    · obtain rfl : job = job' := Option.some.inj (h.symm.trans hold)
      exact ⟨le_refl _, fun _ => Or.inl rfl⟩
  | finishFail w emsg hbusy =>
    rcases hinv.worker_state w hbusy with ⟨⟨jobP, hjobP, hstP, _, _⟩, _⟩
    rcases rawGet_update_cases s.store now w.job_id "failed" none _ id
      job' h' with ⟨rfl, jd2, hget2, rfl⟩ | hold
    · obtain rfl : job = jobP := Option.some.inj (h.symm.trans hjobP)
      rw [applyUpdate_status, hstP, statusRank_processing, statusRank_failed]
      exact ⟨by omega, fun _ => Or.inr rfl⟩
    · obtain rfl : job = job' := Option.some.inj (h.symm.trans hold)
      exact ⟨le_refl _, fun _ => Or.inl rfl⟩

/-- C2: in every reachable state, a job record whose `results` field is
populated has exactly `task_count` result entries, the `k`-th entry carries
the id of the `k`-th submitted task, and `completed_count + failed_count`
equals `task_count`. -/
theorem C2_results_wellformed {s : SysState} (hr : Reach s) (id : String)
    (job : Job) (h : rawGet s.store id = some job) (rs : List TaskResult)
    (hrs : job.results = some rs) :
    rs.length = job.task_count ∧
    (∀ (k : Nat) (h1 : k < rs.length) (h2 : k < job.tasks.length),
      (rs.get ⟨k, h1⟩).id = (job.tasks.get ⟨k, h2⟩).id) ∧
    job.completed_count + job.failed_count = job.task_count :=
  (reach_inv hr).results_ok id job h rs hrs

/-- C3: `batch_chat_completion` is total (it never raises) and never drops a
task: it returns one result per task in order; a task whose model call
raises yields a `TaskResult` with empty output, zeroed usage and the
exception's message as `error`, and a task whose call succeeds yields its
output, usage and a null `error` — independently of the outcomes of the
other tasks. -/
theorem C3_task_isolation (models : List String) (model_id : String)
    (tasks : List BatchTask) (calls : Nat → ModelOutcome) :
    (batch_chat_completion models model_id tasks calls).length =
      tasks.length ∧
    ∀ (k : Nat) (hk : k < tasks.length)
      (hr : k < (batch_chat_completion models model_id tasks calls).length),
      ((batch_chat_completion models model_id tasks calls).get ⟨k, hr⟩).id =
        (tasks.get ⟨k, hk⟩).id ∧
      (∀ e, chat_completion models model_id (calls k) = .error e →
        (batch_chat_completion models model_id tasks calls).get ⟨k, hr⟩ =
          ⟨(tasks.get ⟨k, hk⟩).id, "", ⟨0, 0, 0⟩, some e⟩) ∧
      (∀ out u, chat_completion models model_id (calls k) = .ok (out, u) →
        (batch_chat_completion models model_id tasks calls).get ⟨k, hr⟩ =
          ⟨(tasks.get ⟨k, hk⟩).id, out, u, none⟩) := by
  refine ⟨batch_chat_completion_length models model_id tasks calls, ?_⟩
  intro k hk hr
  rw [batch_chat_completion_get models model_id tasks calls k hr hk]
  refine ⟨taskResultFor_id models model_id _ _, ?_, ?_⟩
  · intro e he
    unfold taskResultFor
    rw [he]
  · intro out u hou
    unfold taskResultFor
    rw [hou]

/-- C4: `started_at` is idempotent under duplicate `processing` updates: once
a first `update_job_status(job_id, "processing")` has set `started_at` to its
own (positive) timestamp, a second `processing` update at any later time
leaves `started_at` exactly as the first call set it. -/
theorem C4_started_at_idempotent (b : StoreBackend) (t1 t2 : Nat)
    (id : String) (jd : Job) (hget : get_job_status b t1 id = some jd)
    (ht1 : 0 < t1) (hunset : truthyNat jd.started_at = false) :
    ∃ j1 j2,
      rawGet (update_job_status b t1 id "processing" none none) id =
        some j1 ∧
      j1.started_at = some t1 ∧
      rawGet (update_job_status
        (update_job_status b t1 id "processing" none none)
        t2 id "processing" none none) id = some j2 ∧
      j2.started_at = some t1 := by
  have h1 : rawGet (update_job_status b t1 id "processing" none none) id =
      some (applyUpdate jd t1 "processing" none none) :=
    rawGet_update_self _ none none hget
  have hs1 : (applyUpdate jd t1 "processing" none none).started_at =
      some t1 := by
    rw [applyUpdate_started_at, if_pos ⟨rfl, hunset⟩]
  have htr : truthyNat (some t1) = true := by
    have ht1' : t1 ≠ 0 := Nat.pos_iff_ne_zero.mp ht1
    simp [truthyNat, ht1']
  cases hget2 : get_job_status
      (update_job_status b t1 id "processing" none none) t2 id with
  | none =>
    refine ⟨applyUpdate jd t1 "processing" none none,
      applyUpdate jd t1 "processing" none none, h1, hs1, ?_, hs1⟩
    rw [update_of_get_none hget2]
    exact h1
  | some jd2 =>
    have hjd2 : jd2 = applyUpdate jd t1 "processing" none none := by
      have := rawGet_of_get hget2
      rw [h1] at this
      exact Option.some.inj this.symm
    refine ⟨applyUpdate jd t1 "processing" none none,
      applyUpdate jd2 t2 "processing" none none, h1, hs1,
      rawGet_update_self _ none none hget2, ?_⟩
    rw [applyUpdate_started_at, if_neg, hjd2, hs1]
    intro hcond
    rw [hjd2, hs1, htr] at hcond
    cases hcond.2

/-- C5: a submission naming a model id absent from the registry is rejected
synchronously before any state is created: the store (and with it the queue)
is returned untouched and the caller gets the validation error instead of a
job id. -/
theorem C5_invalid_model_rejected (models : List String) (b : StoreBackend)
    (now : Nat) (fresh : String) (req : BatchGenerationRequest)
    (h : is_valid_model models req.model = false) :
    submit_batch_generation models b now fresh req =
      (b, .error ("Unknown model: " ++ req.model)) := by
  simp [submit_batch_generation, h]

/-- C6: a status lookup performed on the job id returned by a valid
submission, before any worker update (modelled at the submission instant),
returns a record with status `queued`, `task_count` equal to the number of
submitted tasks, `results` null, both counters zero, and
`started_at`/`completed_at`/`error` all null. -/
theorem C6_initial_status (b : StoreBackend) (now : Nat)
    (fresh model_id : String) (tasks : List BatchTask) (mt tp tpp : Nat)
    (meta : Option (List (String × String))) :
    ∃ job,
      get_job_status
        (submit_batch_job b now fresh model_id tasks mt tp tpp meta).1 now
        (submit_batch_job b now fresh model_id tasks mt tp tpp meta).2 =
        some job ∧
      job.status = "queued" ∧ job.task_count = tasks.length ∧
      job.results = none ∧ job.completed_count = 0 ∧ job.failed_count = 0 ∧
      job.started_at = none ∧ job.completed_at = none ∧ job.error = none := by
  refine ⟨mkJobData fresh model_id tasks mt tp tpp meta now, ?_, rfl, rfl,
    rfl, rfl, rfl, rfl, rfl, rfl⟩
  cases b with
  | redis entries q =>
    have hlt : now < now + 86400 := by omega
    simp [get_job_status, submit_batch_job, assocGet_set_self, hlt]
  | inMemory jobs =>
    simp [get_job_status, submit_batch_job, assocGet_set_self]

/-- C7: updating a job id that is absent from the store (never created, or
expired) is a silent no-op: the call returns and the entire store — every
record and the queue — is left unchanged. -/
theorem C7_absent_update_noop (b : StoreBackend) (now : Nat)
    (id st : String) (rs : Option (List TaskResult)) (er : Option String)
    (h : get_job_status b now id = none) :
    update_job_status b now id st rs er = b := by
  simp [update_job_status, h]

theorem update_of_get_some {b : StoreBackend} {now : Nat} {id : String}
    (st : String) (rs : Option (List TaskResult)) (er : Option String)
    {jd : Job} (h : get_job_status b now id = some jd) :
    update_job_status b now id st rs er =
      storePut b now id (applyUpdate jd now st rs er) := by
  simp [update_job_status, h]

/-- C8 counterexample: under the in-process fallback backend, a record
written at time `0` is still returned by `get_job_status` at time `86401`,
which is past the fixed 24-hour retention window — the claim that a lookup
past expiry reports not-found regardless of the selected backend is false
for the fallback, whose dictionary has no expiry at all. -/
theorem C8_counterexample :
    0 + 86400 ≤ 86401 ∧
    get_job_status
      (submit_batch_job (StoreBackend.inMemory []) 0 "b1" "m"
        [⟨"t1", []⟩] 512 7 95 none).1 86401 "b1" ≠ none := by
  refine ⟨by omega, ?_⟩
  decide

/-- C8 amended: under the durable (Redis) backend every write — submission
or update — resets the record's expiry window to the fixed 24-hour retention
period (lookups before `now + 86400` return the written record, lookups at
or after it return not-found), while the in-process fallback stores records
without any expiry, so its lookups do not depend on the lookup time. -/
theorem C8_ttl_redis_only (entries : List (String × (Job × Nat)))
    (q : List String) (now : Nat) (fresh model_id : String)
    (tasks : List BatchTask) (mt tp tpp : Nat)
    (meta : Option (List (String × String))) (id st : String)
    (rs : Option (List TaskResult)) (er : Option String) (jd : Job)
    (jobs : List (String × Job)) (jid : String) (t1 t2 : Nat) :
    (∀ t, now + 86400 ≤ t →
      get_job_status (submit_batch_job (.redis entries q) now fresh model_id
        tasks mt tp tpp meta).1 t fresh = none) ∧
    (∀ t, t < now + 86400 →
      get_job_status (submit_batch_job (.redis entries q) now fresh model_id
        tasks mt tp tpp meta).1 t fresh =
        some (mkJobData fresh model_id tasks mt tp tpp meta now)) ∧
    (get_job_status (.redis entries q) now id = some jd →
      (∀ t, now + 86400 ≤ t →
        get_job_status (update_job_status (.redis entries q) now id st rs er)
          t id = none) ∧
      (∀ t, t < now + 86400 →
        get_job_status (update_job_status (.redis entries q) now id st rs er)
          t id = some (applyUpdate jd now st rs er))) ∧
    get_job_status (.inMemory jobs) t1 jid =
      get_job_status (.inMemory jobs) t2 jid := by
  refine ⟨?_, ?_, ?_, rfl⟩
  · intro t ht
    have hnlt : ¬t < now + 86400 := by omega
    simp [get_job_status, submit_batch_job, assocGet_set_self, hnlt]
  · intro t ht
    simp [get_job_status, submit_batch_job, assocGet_set_self, ht]
  · intro hget
    constructor
    · intro t ht
      have hnlt : ¬t < now + 86400 := by omega
      rw [update_of_get_some st rs er hget]
      simp [storePut, get_job_status, assocGet_set_self, hnlt]
    · intro t ht
      rw [update_of_get_some st rs er hget]
      simp [storePut, get_job_status, assocGet_set_self, ht]

/-- C9: an update whose `results` argument is absent or the empty list
leaves `results`, `completed_count` and `failed_count` at their prior
values; in particular the worker's fail path (status `failed`, a non-empty
error message, no results) sets status, `error` and `completed_at` while
leaving `results` null on a job that never had results. -/
theorem C9_empty_results_preserved (b : StoreBackend) (now : Nat)
    (id st : String) (er : Option String) (jd : Job)
    (hget : get_job_status b now id = some jd) :
    (∃ j1, rawGet (update_job_status b now id st none er) id = some j1 ∧
      j1.results = jd.results ∧ j1.completed_count = jd.completed_count ∧
      j1.failed_count = jd.failed_count) ∧
    (∃ j2, rawGet (update_job_status b now id st (some []) er) id =
        some j2 ∧
      j2.results = jd.results ∧ j2.completed_count = jd.completed_count ∧
      j2.failed_count = jd.failed_count) ∧
    (∀ e, e ≠ "" → jd.results = none →
      ∃ j3, rawGet (update_job_status b now id "failed" none (some e)) id =
          some j3 ∧
        j3.status = "failed" ∧ j3.error = some e ∧
        j3.completed_at = some now ∧ j3.results = none) := by
  refine ⟨?_, ?_, ?_⟩
  · refine ⟨applyUpdate jd now st none er,
      rawGet_update_self st none er hget, ?_, ?_, ?_⟩
    · exact applyUpdate_results_none jd now st er
    · exact applyUpdate_completed_count_none jd now st er
    · exact applyUpdate_failed_count_none jd now st er
  · refine ⟨applyUpdate jd now st (some []) er,
      rawGet_update_self st (some []) er hget, ?_, ?_, ?_⟩
    · rw [applyUpdate_results_some]
      simp
    · rw [applyUpdate_completed_count_some]
      simp
    · rw [applyUpdate_failed_count_some]
      simp
  · intro e he hres
    refine ⟨applyUpdate jd now "failed" none (some e),
      rawGet_update_self "failed" none (some e) hget, ?_, ?_, ?_, ?_⟩
    · exact applyUpdate_status jd now "failed" none (some e)
    · rw [applyUpdate_error]
      exact if_neg he
    · rw [applyUpdate_completed_at, if_pos (Or.inr rfl)]
    · rw [applyUpdate_results_none]
      exact hres

/-- C10: terminal timestamps are not idempotent: every update that sets
status `completed` or `failed` on a present job writes `completed_at` with
the time of that very call, overwriting any value an earlier terminal
update had set. -/
theorem C10_completed_at_overwritten (b : StoreBackend) (now : Nat)
    (id st : String) (rs : Option (List TaskResult)) (er : Option String)
    (jd : Job) (hget : get_job_status b now id = some jd)
    (hst : st = "completed" ∨ st = "failed") :
    ∃ j', rawGet (update_job_status b now id st rs er) id = some j' ∧
      j'.completed_at = some now := by
  refine ⟨applyUpdate jd now st rs er, rawGet_update_self st rs er hget, ?_⟩
  rw [applyUpdate_completed_at, if_pos hst]

theorem wStep01 : Step wS0 3 wS1 :=
  Step.submit wS0 3 "b1" "m" [wTask] 512 7 95 none rfl (by decide)
    (by intro w hw; cases hw)

theorem wReach1 : Reach wS1 :=
  Reach.step wS0 wS1 3 (Reach.init false) wStep01

theorem wStep12 : Step wS1 4 wS2 :=
  Step.dequeueHit wS1 4 "b1" wS1.store wJob1 rfl rfl rfl

theorem wReach2 : Reach wS2 :=
  Reach.step wS1 wS2 4 wReach1 wStep12

theorem wStep23 : Step wS2 6 wS3 :=
  Step.finishOk wS2 6 ⟨"b1", wJob1⟩ ["m"] wCalls rfl

theorem wReach3 : Reach wS3 :=
  Reach.step wS2 wS3 6 wReach2 wStep23

/-- Witness for C1 on the concrete run: the dequeue step moves the job from
`queued` to `processing`, forward in rank. -/
theorem C1_status_monotone_witness :
    statusRank wJob1.status ≤ statusRank wJobMid.status ∧
      ((wJobMid.status = "completed" ∨ wJobMid.status = "failed") →
        wJob1.status = wJobMid.status ∨ wJob1.status = "processing") :=
  C1_status_monotone wReach1 wStep12 "b1" wJob1 wJobMid (by decide)
    (by decide)

/-- Witness for C2 on the concrete run: the completed job's results are one
per task, in order, with consistent counters. -/
theorem C2_results_wellformed_witness :
    wRes.length = wJobFinal.task_count ∧
    (∀ (k : Nat) (h1 : k < wRes.length) (h2 : k < wJobFinal.tasks.length),
      (wRes.get ⟨k, h1⟩).id = (wJobFinal.tasks.get ⟨k, h2⟩).id) ∧
    wJobFinal.completed_count + wJobFinal.failed_count =
      wJobFinal.task_count :=
  C2_results_wellformed wReach3 "b1" wJobFinal (by decide) wRes (by decide)

/-- Witness for C3 at a concrete task list and oracle. -/
theorem C3_task_isolation_witness :
    (batch_chat_completion ["m"] "m" [wTask] wCalls).length =
      [wTask].length ∧
    ∀ (k : Nat) (hk : k < [wTask].length)
      (hr : k < (batch_chat_completion ["m"] "m" [wTask] wCalls).length),
      ((batch_chat_completion ["m"] "m" [wTask] wCalls).get ⟨k, hr⟩).id =
        ([wTask].get ⟨k, hk⟩).id ∧
      (∀ e, chat_completion ["m"] "m" (wCalls k) = .error e →
        (batch_chat_completion ["m"] "m" [wTask] wCalls).get ⟨k, hr⟩ =
          ⟨([wTask].get ⟨k, hk⟩).id, "", ⟨0, 0, 0⟩, some e⟩) ∧
      (∀ out u, chat_completion ["m"] "m" (wCalls k) = .ok (out, u) →
        (batch_chat_completion ["m"] "m" [wTask] wCalls).get ⟨k, hr⟩ =
          ⟨([wTask].get ⟨k, hk⟩).id, out, u, none⟩) :=
  C3_task_isolation ["m"] "m" [wTask] wCalls

/-- Witness for C4 on a concrete queued record: both `processing` updates
leave `started_at` at the first call's time `5`. -/
theorem C4_started_at_idempotent_witness :
    ∃ j1 j2,
      rawGet (update_job_status wB 5 "j1" "processing" none none) "j1" =
        some j1 ∧
      j1.started_at = some 5 ∧
      rawGet (update_job_status
        (update_job_status wB 5 "j1" "processing" none none)
        9 "j1" "processing" none none) "j1" = some j2 ∧
      j2.started_at = some 5 :=
  C4_started_at_idempotent wB 5 9 "j1" wJobQ (by decide) (by decide)
    (by decide)

/-- Witness for C5: an unknown model id is rejected and the store returned
untouched. -/
theorem C5_invalid_model_rejected_witness :
    submit_batch_generation ["m"] (StoreBackend.inMemory []) 3 "b9" wReq =
      (StoreBackend.inMemory [],
        .error ("Unknown model: " ++ wReq.model)) :=
  C5_invalid_model_rejected ["m"] (StoreBackend.inMemory []) 3 "b9" wReq
    (by decide)

/-- Witness for C6 at a concrete submission. -/
theorem C6_initial_status_witness :
    ∃ job,
      get_job_status
        (submit_batch_job (StoreBackend.inMemory []) 3 "b1" "m" [wTask]
          512 7 95 none).1 3
        (submit_batch_job (StoreBackend.inMemory []) 3 "b1" "m" [wTask]
          512 7 95 none).2 = some job ∧
      job.status = "queued" ∧ job.task_count = [wTask].length ∧
      job.results = none ∧ job.completed_count = 0 ∧ job.failed_count = 0 ∧
      job.started_at = none ∧ job.completed_at = none ∧ job.error = none :=
  C6_initial_status (StoreBackend.inMemory []) 3 "b1" "m" [wTask] 512 7 95
    none

/-- Witness for C7: updating an id absent from an empty store returns the
store unchanged. -/
theorem C7_absent_update_noop_witness :
    update_job_status (StoreBackend.inMemory []) 5 "ghost" "completed" none
      none = StoreBackend.inMemory [] :=
  C7_absent_update_noop (StoreBackend.inMemory []) 5 "ghost" "completed"
    none none (by decide)

/-- Witness for the amended C8 on a concrete Redis submission at time 5: the
record is gone at time 86405 (24 hours after the write) and still present at
time 6. -/
theorem C8_ttl_redis_only_witness :
    get_job_status (submit_batch_job (.redis [] []) 5 "b1" "m" [wTask]
      512 7 95 none).1 86405 "b1" = none ∧
    get_job_status (submit_batch_job (.redis [] []) 5 "b1" "m" [wTask]
      512 7 95 none).1 6 "b1" =
      some (mkJobData "b1" "m" [wTask] 512 7 95 none 5) :=
  ⟨(C8_ttl_redis_only [] [] 5 "b1" "m" [wTask] 512 7 95 none "x"
      "processing" none none wJobQ [] "y" 0 1).1 86405 (by omega),
    (C8_ttl_redis_only [] [] 5 "b1" "m" [wTask] 512 7 95 none "x"
      "processing" none none wJobQ [] "y" 0 1).2.1 6 (by omega)⟩

/-- Witness for C9 on a concrete queued record with null results. -/
theorem C9_empty_results_preserved_witness :
    (∃ j1, rawGet (update_job_status wB 5 "j1" "processing" none none)
        "j1" = some j1 ∧
      j1.results = wJobQ.results ∧
      j1.completed_count = wJobQ.completed_count ∧
      j1.failed_count = wJobQ.failed_count) ∧
    (∃ j2, rawGet (update_job_status wB 5 "j1" "processing" (some []) none)
        "j1" = some j2 ∧
      j2.results = wJobQ.results ∧
      j2.completed_count = wJobQ.completed_count ∧
      j2.failed_count = wJobQ.failed_count) ∧
    (∀ e, e ≠ "" → wJobQ.results = none →
      ∃ j3, rawGet (update_job_status wB 5 "j1" "failed" none (some e))
          "j1" = some j3 ∧
        j3.status = "failed" ∧ j3.error = some e ∧
        j3.completed_at = some 5 ∧ j3.results = none) :=
  C9_empty_results_preserved wB 5 "j1" "processing" none wJobQ (by decide)

/-- Witness for C10 on a record whose `completed_at` was set to `5` by an
earlier terminal update: a second terminal update at time `9` overwrites it
with `9`. -/
theorem C10_completed_at_overwritten_witness :
    ∃ j', rawGet (update_job_status wBDone 9 "j2" "completed" none none)
        "j2" = some j' ∧
      j'.completed_at = some 9 :=
  C10_completed_at_overwritten wBDone 9 "j2" "completed" none none wJobDone
    (by decide) (Or.inl rfl)

end LlmGateway
